import Mathlib

/-!
Verification of the Nokia n810 battery management driver
(`drivers/cbus/n810bm_main.c`).

The driver's pure computations are shallowly embedded as Lean functions;
the controller state (`struct n810bm`) becomes an explicit record and the
stateful operations become state-passing functions.  Hardware register
accesses that matter to the claims (the current-measurement circuitry
enable/disable writes) are recorded in an explicit trace; ADC reads are
passed in as oracle sample lists (a negative sample models a failed read,
as in the C code where `retu_read_adc` returns a negative errno).
-/

namespace N810bm

/-! ## ADC averaging (`retu_adc_average`)

The C loop reads `nr_passes` samples, aborts returning the first negative
(error) result, otherwise accumulates and divides by the pass count. -/

/-- Accumulating loop of `retu_adc_average`: the first negative sample is
returned as the error, otherwise the running sum is produced. -/
def retu_adc_loop : List Int → Int → Except Int Int
  | [], value => .ok value
  | r :: rest, value => if r < 0 then .error r else retu_adc_loop rest (value + r)

/-- Embedding of `retu_adc_average`: average of the sample list, or the
first failing read's (negative) result. -/
def retu_adc_average (samples : List Int) : Int :=
  match retu_adc_loop samples 0 with
  | .error e => e
  | .ok value => value / (samples.length : Int)

/-! ## Battery voltage (`n810bm_measure_batt_voltage`)

Averages 5 raw samples, clamps raw values at or below 0x37 to 2800 mV and
otherwise maps linearly onto [2800 mV at 0x37, 4200 mV at 0x236]. -/

/-- Embedding of `n810bm_measure_batt_voltage` as a function of the
averaged ADC value (negative input = failed read, propagated). -/
def n810bm_measure_batt_voltage_of_adc (adc : Int) : Int :=
  if adc < 0 then adc
  else if adc ≤ 0x37 then 2800
  else 2800 + ((adc - 0x37) * (((4200 - 2800) * 1000) / (0x236 - 0x37))) / 1000

/-- Embedding of `n810bm_measure_batt_voltage` over the 5 raw samples. -/
def n810bm_measure_batt_voltage (samples : List Int) : Int :=
  n810bm_measure_batt_voltage_of_adc (retu_adc_average samples)

/-! ## Battery capacity class (`n810bm_read_batt_capacity`)

Averages 5 BSI samples; the result is the C enum value: `-1` is
`N810BM_CAP_UNKNOWN`, `1500` is `N810BM_CAP_1500MAH`.  The hysteresis
constant `hyst` in the source is 20 raw units around 0x3B5. -/

/-- Embedding of `n810bm_read_batt_capacity`. -/
def n810bm_read_batt_capacity (samples : List Int) : Int :=
  let adc := retu_adc_average samples
  if adc < 0 then -1
  else if 0x3B5 - 20 ≤ adc ∧ adc ≤ 0x3B5 + 20 then 1500
  else -1

/-! ## Voltage to percentage (`n810bm_mvolt2percent`)

Clamps to [3700, 4150] mV (`clamp(mv, minv, maxv)` in the source is
`min (max mv minv) maxv`) and scales linearly. -/

/-- Embedding of `n810bm_mvolt2percent` (minv = 3700, maxv = 4150). -/
def n810bm_mvolt2percent (mv : Nat) : Nat :=
  (min (max mv 3700) 4150 - 3700) * 100 / (4150 - 3700)

/-! ## Helper lemmas about the averaging loop -/

theorem retu_adc_loop_all_nonneg (samples : List Int) (acc : Int)
    (h : ∀ x ∈ samples, 0 ≤ x) :
    retu_adc_loop samples acc = .ok (acc + samples.sum) := by
  induction samples generalizing acc with
  | nil => simp [retu_adc_loop]
  | cons x xs ih =>
    have hx : ¬ x < 0 := not_lt.2 (h x (by simp))
    rw [retu_adc_loop, if_neg hx, ih (acc + x) (fun y hy => h y (by simp [hy]))]
    simp [add_assoc]

/-- C7: the battery-capacity-class reader averages 5 BSI ADC samples and
returns Known(1500 mAh) iff the (nonnegative) average lies within 20 raw
units of 0x3B5 inclusive; a failed read (negative average) and any average
outside the band yield Unknown (-1). -/
theorem n810bm_read_batt_capacity_spec (samples : List Int)
    (hlen : samples.length = 5) :
    (n810bm_read_batt_capacity samples = 1500 ↔
      0 ≤ retu_adc_average samples ∧
      0x3B5 - 20 ≤ retu_adc_average samples ∧
      retu_adc_average samples ≤ 0x3B5 + 20) ∧
    (retu_adc_average samples < 0 → n810bm_read_batt_capacity samples = -1) ∧
    (0 ≤ retu_adc_average samples ∧
        (retu_adc_average samples < 0x3B5 - 20 ∨
         0x3B5 + 20 < retu_adc_average samples) →
      n810bm_read_batt_capacity samples = -1) ∧
    ((∀ x ∈ samples, 0 ≤ x) → retu_adc_average samples = samples.sum / 5) := by
  refine ⟨?_, ?_, ?_, ?_⟩
  · unfold n810bm_read_batt_capacity
    constructor
    · intro h
      by_cases hneg : retu_adc_average samples < 0
      · simp [hneg] at h
      · by_cases hband : 0x3B5 - 20 ≤ retu_adc_average samples ∧
            retu_adc_average samples ≤ 0x3B5 + 20
        · exact ⟨not_lt.1 hneg, hband.1, hband.2⟩
        · simp [hneg, hband] at h
          omega
    · rintro ⟨h0, h1, h2⟩
      rw [if_neg (not_lt.2 h0), if_pos ⟨h1, h2⟩]
  · intro hneg
    unfold n810bm_read_batt_capacity
    simp [hneg]
  · rintro ⟨h0, hout⟩
    unfold n810bm_read_batt_capacity
    rw [if_neg (not_lt.2 h0), if_neg (by omega)]
  · intro hnn
    unfold retu_adc_average
    rw [retu_adc_loop_all_nonneg samples 0 hnn]
    simp [hlen]

/-- Witness for C7: five samples of exactly 0x3B5 resolve to the 1500 mAh
capacity class. -/
theorem n810bm_read_batt_capacity_witness :
    n810bm_read_batt_capacity [949, 949, 949, 949, 949] = 1500 :=
  (n810bm_read_batt_capacity_spec [949, 949, 949, 949, 949] (by decide)).1.mpr
    (by decide)

/-- C8: `n810bm_mvolt2percent` maps 3700 mV to 0, 4150 mV to 100, stays in
0..100 everywhere, clamps below 3700 to 0 and above 4150 to 100, and is
monotone non-decreasing. -/
theorem n810bm_mvolt2percent_spec (a b : Nat) (hab : a ≤ b) :
    n810bm_mvolt2percent 3700 = 0 ∧
    n810bm_mvolt2percent 4150 = 100 ∧
    n810bm_mvolt2percent a ≤ 100 ∧
    (a ≤ 3700 → n810bm_mvolt2percent a = 0) ∧
    (4150 ≤ a → n810bm_mvolt2percent a = 100) ∧
    n810bm_mvolt2percent a ≤ n810bm_mvolt2percent b := by
  refine ⟨by decide, by decide, ?_, ?_, ?_, ?_⟩
  · unfold n810bm_mvolt2percent
    have h1 : min (max a 3700) 4150 - 3700 ≤ 450 := by omega
    calc (min (max a 3700) 4150 - 3700) * 100 / (4150 - 3700)
        ≤ 450 * 100 / (4150 - 3700) :=
          Nat.div_le_div_right (Nat.mul_le_mul_right _ h1)
      _ = 100 := by norm_num
  · intro h
    unfold n810bm_mvolt2percent
    have hc : min (max a 3700) 4150 = 3700 := by omega
    rw [hc]
  · intro h
    unfold n810bm_mvolt2percent
    have hc : min (max a 3700) 4150 = 4150 := by omega
    rw [hc]
  · unfold n810bm_mvolt2percent
    exact Nat.div_le_div_right (Nat.mul_le_mul_right _ (by omega))

/-- Witness for C8: concrete clamping and monotonicity instances obtained
from the specification theorem. -/
theorem n810bm_mvolt2percent_witness :
    n810bm_mvolt2percent 3600 = 0 ∧ n810bm_mvolt2percent 4200 = 100 ∧
    n810bm_mvolt2percent 3900 ≤ n810bm_mvolt2percent 4000 :=
  ⟨(n810bm_mvolt2percent_spec 3600 4000 (by decide)).2.2.2.1 (by decide),
   (n810bm_mvolt2percent_spec 4200 4200 (by decide)).2.2.2.2.1 (by decide),
   (n810bm_mvolt2percent_spec 3900 4000 (by decide)).2.2.2.2.2⟩

/-! ## Controller state (`struct n810bm`)

The mutable aggregate guarded by the driver mutex, together with an
explicit trace of the hardware writes to the current-measurement enable
bit of `TAHVO_REG_CHGCTL` (the only register writes any claim is about). -/

/-- Hardware writes to the current-measurement circuitry enable bit
(`TAHVO_REG_CHGCTL_CURMEAS`). -/
inductive HwOp
  | curmeasOn
  | curmeasOff
  deriving DecidableEq

/-- Notification kinds, in the order of `enum n810bm_notify_flags`
(bit 0 charger_present, bit 1 charger_state, bit 2 charger_pwm). -/
inductive NotifyKind
  | charger_present
  | charger_state
  | charger_pwm
  deriving DecidableEq

/-- Bit position of a notification flag, as given by the enum order. -/
def notify_bit : NotifyKind → Nat
  | .charger_present => 0
  | .charger_state => 1
  | .charger_pwm => 2

/-- Embedding of `struct n810bm`.  `capacity` keeps the C enum encoding
(-1 unknown, 0 none, 1500 the 1500 mAh battery); `current_measure_enabled`
is the C `int` refcount; `hw_curmeas_on` mirrors the CURMEAS bit the
driver writes; `curr_timer` is the interval last given to
`n810bm_set_current_measure_timer`. -/
structure BmState where
  battery_present : Bool
  charger_present : Bool
  capacity : Int
  charger_enabled : Bool
  charging : Bool
  active_current_pwm : Nat
  current_measure_enabled : Int
  curr_timer : Nat
  hw_curmeas_on : Bool
  notify_flags : Nat
  trace : List HwOp
  deriving DecidableEq

/-- Embedding of `n810bm_known_battery_present`. -/
def n810bm_known_battery_present (s : BmState) : Bool :=
  s.battery_present && s.capacity ≠ -1 && s.capacity ≠ 0

/-- Modelled from the spec: the charge-algorithm collaborator
(`lipocharge`, whose source is not among the staged files) owns the
derived `charging` boolean; `is_charging()` merely reports it. -/
def lipocharge_is_charging (s : BmState) : Bool := s.charging

/-- Modelled from the spec: the collaborator's `start(capacity)` activates
the charge algorithm (it succeeds under `start_charge`'s asserted
preconditions: known capacity > 0 and not already charging). -/
def lipocharge_start (s : BmState) : BmState := { s with charging := true }

/-- Modelled from the spec: the collaborator's `stop()` deactivates the
charge algorithm. -/
def lipocharge_stop (s : BmState) : BmState := { s with charging := false }

/-- Embedding of `n810bm_set_current_measure_timer`, reduced to the
observable interval (the register encoding of the interval is used by no
claim). -/
def n810bm_set_current_measure_timer (s : BmState) (ms : Nat) : BmState :=
  { s with curr_timer := ms }

/-- Embedding of `n810bm_enable_current_measure`: the hardware enable
write is issued only when the refcount is 0 before the increment. -/
def n810bm_enable_current_measure (s : BmState) : BmState :=
  let s1 := if s.current_measure_enabled = 0 then
      { s with hw_curmeas_on := true, trace := s.trace ++ [HwOp.curmeasOn] }
    else s
  { s1 with current_measure_enabled := s1.current_measure_enabled + 1 }

/-- Embedding of `n810bm_disable_current_measure`: the refcount is
decremented first and the hardware disable write issued only when it
reaches 0. -/
def n810bm_disable_current_measure (s : BmState) : BmState :=
  let s1 := { s with current_measure_enabled := s.current_measure_enabled - 1 }
  if s1.current_measure_enabled = 0 then
    { s1 with hw_curmeas_on := false, trace := s1.trace ++ [HwOp.curmeasOff] }
  else s1

/-- Embedding of `n810bm_notify_charger_present` (sets the pending flag;
the scheduling of the coalescing task carries no state here). -/
def n810bm_notify_charger_present (s : BmState) : BmState :=
  { s with notify_flags :=
      s.notify_flags ||| (1 <<< notify_bit .charger_present) }

/-- Embedding of `n810bm_notify_charger_state`. -/
def n810bm_notify_charger_state (s : BmState) : BmState :=
  { s with notify_flags :=
      s.notify_flags ||| (1 <<< notify_bit .charger_state) }

/-- Embedding of `n810bm_notify_charger_pwm`. -/
def n810bm_notify_charger_pwm (s : BmState) : BmState :=
  { s with notify_flags :=
      s.notify_flags ||| (1 <<< notify_bit .charger_pwm) }

/-- Embedding of `n810bm_start_charge`: zero the PWM, assert the charger
global enable, start the charge algorithm, enable current measurement and
arm the 250 ms current-measurement timer, then post the charger_state and
charger_pwm notifications. -/
def n810bm_start_charge (s : BmState) : BmState :=
  let s := { s with active_current_pwm := 0 }
  let s := lipocharge_start s
  let s := n810bm_enable_current_measure s
  let s := n810bm_set_current_measure_timer s 250
  n810bm_notify_charger_pwm (n810bm_notify_charger_state s)

/-- Embedding of `n810bm_stop_charge`: only if the algorithm reports
charging are the timer disarmed and current measurement disabled; then the
algorithm is stopped, the PWM zeroed, the global enable cleared and the
same two notifications posted. -/
def n810bm_stop_charge (s : BmState) : BmState :=
  let s := if lipocharge_is_charging s then
      n810bm_disable_current_measure (n810bm_set_current_measure_timer s 0)
    else s
  let s := lipocharge_stop s
  let s := { s with active_current_pwm := 0 }
  n810bm_notify_charger_pwm (n810bm_notify_charger_state s)

/-- Embedding of `n810bm_notify_work`: the pending-flag word is exchanged
with zero and one sysfs notification is emitted per flag that was set, in
the fixed order of the `do_notify` invocations. -/
def n810bm_notify_work (s : BmState) : List NotifyKind × BmState :=
  let flags := s.notify_flags
  ((if flags &&& (1 <<< notify_bit .charger_present) ≠ 0 then
      [NotifyKind.charger_present] else []) ++
   (if flags &&& (1 <<< notify_bit .charger_state) ≠ 0 then
      [NotifyKind.charger_state] else []) ++
   (if flags &&& (1 <<< notify_bit .charger_pwm) ≠ 0 then
      [NotifyKind.charger_pwm] else []),
   { s with notify_flags := 0 })

/-- C3: from an idle (not-charging) state meeting `start_charge`'s
preconditions, `start_charge` followed by `stop_charge` leaves the active
PWM at 0 and restores the current-measure refcount to its pre-start value;
`stop_charge` on an idle state is idempotent: PWM 0 and refcount
unchanged. -/
theorem start_stop_charge_round_trip (s : BmState)
    (hidle : s.charging = false)
    (hbat : s.battery_present = true) (hchg : s.charger_present = true)
    (hcap : 0 < s.capacity) :
    (n810bm_stop_charge (n810bm_start_charge s)).active_current_pwm = 0 ∧
    (n810bm_stop_charge (n810bm_start_charge s)).current_measure_enabled =
      s.current_measure_enabled ∧
    (n810bm_stop_charge s).active_current_pwm = 0 ∧
    (n810bm_stop_charge s).current_measure_enabled =
      s.current_measure_enabled := by
  by_cases h0 : s.current_measure_enabled = 0 <;>
    simp [n810bm_start_charge, n810bm_stop_charge, lipocharge_start,
      lipocharge_stop, lipocharge_is_charging, n810bm_enable_current_measure,
      n810bm_disable_current_measure, n810bm_set_current_measure_timer,
      n810bm_notify_charger_state, n810bm_notify_charger_pwm, hidle, h0]

/-- Concrete idle controller state used by the witnesses: a known 1500
mAh battery and a charger are present, nothing is charging, the
current-measure refcount is zero. -/
def idleChargeState : BmState :=
  { battery_present := true, charger_present := true, capacity := 1500,
    charger_enabled := true, charging := false, active_current_pwm := 0,
    current_measure_enabled := 0, curr_timer := 0, hw_curmeas_on := false,
    notify_flags := 0, trace := [] }

/-- Witness for C3: the round trip evaluated on a concrete idle state. -/
theorem start_stop_charge_round_trip_witness :
    (n810bm_stop_charge (n810bm_start_charge idleChargeState)).active_current_pwm = 0 ∧
    (n810bm_stop_charge (n810bm_start_charge idleChargeState)).current_measure_enabled =
      idleChargeState.current_measure_enabled ∧
    (n810bm_stop_charge idleChargeState).active_current_pwm = 0 ∧
    (n810bm_stop_charge idleChargeState).current_measure_enabled =
      idleChargeState.current_measure_enabled :=
  start_stop_charge_round_trip idleChargeState rfl rfl rfl (by decide)

/-- C4: strict reference counting of the current-measurement circuitry:
from refcount 0, enabling twice then disabling twice issues the hardware
enable write only at the first enable and the disable write only at the
second disable, leaving the circuitry enabled in between; and every
enable, and every disable from a positive refcount, preserves the
invariant that the circuitry is physically enabled iff the refcount is
positive. -/
theorem current_measure_refcount_spec (s t : BmState)
    (h0 : s.current_measure_enabled = 0)
    (hinv : t.hw_curmeas_on = decide (0 < t.current_measure_enabled)) :
    ((n810bm_enable_current_measure s).hw_curmeas_on = true ∧
     (n810bm_enable_current_measure s).trace = s.trace ++ [HwOp.curmeasOn] ∧
     (n810bm_enable_current_measure (n810bm_enable_current_measure s)).hw_curmeas_on
       = true ∧
     (n810bm_enable_current_measure (n810bm_enable_current_measure s)).trace
       = s.trace ++ [HwOp.curmeasOn] ∧
     (n810bm_disable_current_measure (n810bm_enable_current_measure
        (n810bm_enable_current_measure s))).hw_curmeas_on = true ∧
     (n810bm_disable_current_measure (n810bm_enable_current_measure
        (n810bm_enable_current_measure s))).trace
       = s.trace ++ [HwOp.curmeasOn] ∧
     (n810bm_disable_current_measure (n810bm_disable_current_measure
        (n810bm_enable_current_measure
          (n810bm_enable_current_measure s)))).hw_curmeas_on = false ∧
     (n810bm_disable_current_measure (n810bm_disable_current_measure
        (n810bm_enable_current_measure
          (n810bm_enable_current_measure s)))).trace
       = s.trace ++ [HwOp.curmeasOn, HwOp.curmeasOff]) ∧
    ((n810bm_enable_current_measure t).hw_curmeas_on =
      decide (0 < (n810bm_enable_current_measure t).current_measure_enabled)) ∧
    (0 < t.current_measure_enabled →
      (n810bm_disable_current_measure t).hw_curmeas_on =
        decide (0 < (n810bm_disable_current_measure t).current_measure_enabled)) := by
  refine ⟨?_, ?_, ?_⟩
  · simp [n810bm_enable_current_measure, n810bm_disable_current_measure, h0]
  · by_cases ht : t.current_measure_enabled = 0
    · simp [n810bm_enable_current_measure, ht]
    · simp only [n810bm_enable_current_measure, if_neg ht]
      rw [hinv]
      exact decide_eq_decide.mpr (by omega)
  · intro hpos
    by_cases h1 : t.current_measure_enabled - 1 = 0
    · simp [n810bm_disable_current_measure, h1]
    · simp only [n810bm_disable_current_measure, if_neg h1]
      rw [hinv]
      exact decide_eq_decide.mpr (by omega)

/-- Witness for C4: the enable/enable/disable/disable sequence on the
concrete zero-refcount state, with the invariant-preservation parts
instantiated at the same state. -/
theorem current_measure_refcount_witness :
    (((n810bm_enable_current_measure idleChargeState).hw_curmeas_on = true ∧
     (n810bm_enable_current_measure idleChargeState).trace =
       idleChargeState.trace ++ [HwOp.curmeasOn] ∧
     (n810bm_enable_current_measure
        (n810bm_enable_current_measure idleChargeState)).hw_curmeas_on = true ∧
     (n810bm_enable_current_measure
        (n810bm_enable_current_measure idleChargeState)).trace =
       idleChargeState.trace ++ [HwOp.curmeasOn] ∧
     (n810bm_disable_current_measure (n810bm_enable_current_measure
        (n810bm_enable_current_measure idleChargeState))).hw_curmeas_on = true ∧
     (n810bm_disable_current_measure (n810bm_enable_current_measure
        (n810bm_enable_current_measure idleChargeState))).trace =
       idleChargeState.trace ++ [HwOp.curmeasOn] ∧
     (n810bm_disable_current_measure (n810bm_disable_current_measure
        (n810bm_enable_current_measure
          (n810bm_enable_current_measure idleChargeState)))).hw_curmeas_on = false ∧
     (n810bm_disable_current_measure (n810bm_disable_current_measure
        (n810bm_enable_current_measure
          (n810bm_enable_current_measure idleChargeState)))).trace =
       idleChargeState.trace ++ [HwOp.curmeasOn, HwOp.curmeasOff]) ∧
    ((n810bm_enable_current_measure idleChargeState).hw_curmeas_on =
      decide (0 < (n810bm_enable_current_measure
        idleChargeState).current_measure_enabled)) ∧
    (0 < idleChargeState.current_measure_enabled →
      (n810bm_disable_current_measure idleChargeState).hw_curmeas_on =
        decide (0 < (n810bm_disable_current_measure
          idleChargeState).current_measure_enabled))) :=
  current_measure_refcount_spec idleChargeState idleChargeState rfl (by decide)

/-- C6: the notification task drains the whole pending-flag set to zero
and emits exactly one notification per flag that was set (count 1 for a
pending kind, 0 otherwise), so two pending flags yield exactly two
distinct notifications and an empty pending set yields none. -/
theorem notify_work_spec (s : BmState) :
    (n810bm_notify_work s).2.notify_flags = 0 ∧
    (∀ k : NotifyKind, (n810bm_notify_work s).1.count k =
      if s.notify_flags &&& (1 <<< notify_bit k) ≠ 0 then 1 else 0) ∧
    (s.notify_flags = 0 → (n810bm_notify_work s).1 = []) := by
  refine ⟨rfl, ?_, ?_⟩
  · intro k
    by_cases h0 : s.notify_flags &&& (1 <<< notify_bit NotifyKind.charger_present) ≠ 0 <;>
      by_cases h1 : s.notify_flags &&& (1 <<< notify_bit NotifyKind.charger_state) ≠ 0 <;>
        by_cases h2 : s.notify_flags &&& (1 <<< notify_bit NotifyKind.charger_pwm) ≠ 0 <;>
          cases k <;>
            simp_all [n810bm_notify_work, List.count_cons, List.count_append]
  · intro h
    simp [n810bm_notify_work, h]

/-! ## Periodic monitor (`n810bm_periodic_check_work`)

One cycle of the 2-second periodic check.  The no-return Emergency path
(`n810bm_emergency` followed by `cbus_emergency`) is modelled by `Except`:
an `error` result is a cycle that halted the device. -/

/-- Reasons for the Emergency path reachable from the periodic check. -/
inductive Emergency
  | measureVoltageFailed
  | minVoltageThres
  deriving DecidableEq

/-- Oracle inputs of one periodic monitor cycle: the RETU status bits and
the raw ADC samples the cycle would read. -/
structure CheckInput where
  bat_avail : Bool
  chg_plug : Bool
  bsi_samples : List Int
  battvolt_samples : List Int

/-- Presence part of `n810bm_periodic_check_work`: latch the status bits,
react to battery-presence edges (capacity detection on insertion, reset to
none on removal) and post the charger_present notification on a charger
edge. -/
def periodic_presence_update (inp : CheckInput) (s : BmState) : BmState :=
  let battery_was := s.battery_present
  let charger_was := s.charger_present
  let s := { s with battery_present := inp.bat_avail,
                    charger_present := inp.chg_plug }
  let s := if s.battery_present ≠ battery_was then
      (if s.battery_present then
        { s with capacity := n810bm_read_batt_capacity inp.bsi_samples }
      else { s with capacity := 0 })
    else s
  if s.charger_present ≠ charger_was then n810bm_notify_charger_present s else s

/-- Charge part of `n810bm_periodic_check_work`: start charging when a
known battery, a charger and the user enable are all present and the
algorithm is idle; stop when charging but the charger was unplugged. -/
def periodic_charge_update (s : BmState) : BmState :=
  let s := if s.charger_present && n810bm_known_battery_present s &&
      s.charger_enabled && !(lipocharge_is_charging s) then
      n810bm_start_charge s
    else s
  if lipocharge_is_charging s && !s.charger_present then n810bm_stop_charge s
  else s

/-- Embedding of one cycle of `n810bm_periodic_check_work`.  When the
device is discharging (battery present with charger absent, or no known
battery present) the battery voltage is measured and the Emergency path
taken on a failed read or a result below the 3200 mV floor
(`N810BM_MIN_VOLTAGE_THRES`). -/
def n810bm_periodic_check_work (inp : CheckInput) (s0 : BmState) :
    Except Emergency BmState :=
  let s1 := periodic_presence_update inp s0
  if (s1.battery_present && !s1.charger_present) ||
      !(n810bm_known_battery_present s1) then
    let mv := n810bm_measure_batt_voltage inp.battvolt_samples
    if mv < 0 then .error .measureVoltageFailed
    else if mv < 3200 then .error .minVoltageThres
    else .ok (periodic_charge_update s1)
  else .ok (periodic_charge_update s1)

/-- C1: in a periodic cycle in which the device is discharging (battery
present with charger absent, or no known battery present, as evaluated
after the presence update), the Emergency path is invoked exactly when the
measured voltage is below 3200 mV, a failed measurement (negative result)
included; in particular 3199 mV triggers it and 3200 mV or above does
not. -/
theorem periodic_check_emergency (inp : CheckInput) (s : BmState)
    (hdis : (((periodic_presence_update inp s).battery_present &&
        !(periodic_presence_update inp s).charger_present) ||
        !(n810bm_known_battery_present (periodic_presence_update inp s))) = true) :
    ((∃ e, n810bm_periodic_check_work inp s = .error e) ↔
      n810bm_measure_batt_voltage inp.battvolt_samples < 3200) ∧
    (n810bm_measure_batt_voltage inp.battvolt_samples < 0 →
      n810bm_periodic_check_work inp s = .error .measureVoltageFailed) ∧
    (0 ≤ n810bm_measure_batt_voltage inp.battvolt_samples ∧
        n810bm_measure_batt_voltage inp.battvolt_samples < 3200 →
      n810bm_periodic_check_work inp s = .error .minVoltageThres) ∧
    (3200 ≤ n810bm_measure_batt_voltage inp.battvolt_samples →
      n810bm_periodic_check_work inp s =
        .ok (periodic_charge_update (periodic_presence_update inp s))) := by
  have hkey : n810bm_periodic_check_work inp s =
      (if n810bm_measure_batt_voltage inp.battvolt_samples < 0 then
        (Except.error Emergency.measureVoltageFailed : Except Emergency BmState)
      else if n810bm_measure_batt_voltage inp.battvolt_samples < 3200 then
        Except.error Emergency.minVoltageThres
      else Except.ok (periodic_charge_update (periodic_presence_update inp s))) := by
    unfold n810bm_periodic_check_work
    simp [hdis]
  rw [hkey]
  by_cases hneg : n810bm_measure_batt_voltage inp.battvolt_samples < 0
  · refine ⟨⟨fun _ => by omega, fun _ => ⟨.measureVoltageFailed, by simp [hneg]⟩⟩,
      fun _ => by simp [hneg], fun h => by omega, fun h => by omega⟩
  · by_cases h32 : n810bm_measure_batt_voltage inp.battvolt_samples < 3200
    · refine ⟨⟨fun _ => h32, fun _ => ⟨.minVoltageThres, by simp [hneg, h32]⟩⟩,
        fun h => absurd h hneg, fun _ => by simp [hneg, h32], fun h => by omega⟩
    · refine ⟨⟨?_, fun h => absurd h h32⟩,
        fun h => absurd h hneg, fun h => absurd h.2 h32, fun _ => by simp [hneg, h32]⟩
      rintro ⟨e, he⟩
      simp [hneg, h32] at he

/-- Concrete one-cycle input for the C1 witness: battery present, charger
absent, healthy BSI samples, battery-voltage samples averaging to raw 100
(about 2923 mV, below the floor). -/
def dischargeInput : CheckInput :=
  { bat_avail := true, chg_plug := false,
    bsi_samples := [949, 949, 949, 949, 949],
    battvolt_samples := [100, 100, 100, 100, 100] }

/-- Witness for C1: the concrete discharging cycle measures below the
floor and takes the Emergency path. -/
theorem periodic_check_emergency_witness :
    ((∃ e, n810bm_periodic_check_work dischargeInput idleChargeState = .error e) ↔
      n810bm_measure_batt_voltage dischargeInput.battvolt_samples < 3200) ∧
    (n810bm_measure_batt_voltage dischargeInput.battvolt_samples < 0 →
      n810bm_periodic_check_work dischargeInput idleChargeState =
        .error .measureVoltageFailed) ∧
    (0 ≤ n810bm_measure_batt_voltage dischargeInput.battvolt_samples ∧
        n810bm_measure_batt_voltage dischargeInput.battvolt_samples < 3200 →
      n810bm_periodic_check_work dischargeInput idleChargeState =
        .error .minVoltageThres) ∧
    (3200 ≤ n810bm_measure_batt_voltage dischargeInput.battvolt_samples →
      n810bm_periodic_check_work dischargeInput idleChargeState =
        .ok (periodic_charge_update
          (periodic_presence_update dischargeInput idleChargeState))) :=
  periodic_check_emergency dischargeInput idleChargeState (by decide)

/-! ## The battery_level attribute (`n810bm_attr_battery_level_show`) -/

/-- Result of a sysfs attribute read: `ok` carries the printed value,
`enodev` the not-available (-ENODEV) outcome. -/
inductive ShowResult
  | ok (value : Nat)
  | enodev
  deriving DecidableEq

/-- Embedding of `n810bm_attr_battery_level_show`: while the battery is
absent or the charge algorithm is charging the measurement is replaced by
a 0 mV sentinel; a nonnegative millivolt value is printed as a percentage
and a negative one (failed measurement) yields -ENODEV. -/
def n810bm_attr_battery_level_show (s : BmState)
    (battvolt_samples : List Int) : ShowResult :=
  let millivolt : Int :=
    if !s.battery_present || lipocharge_is_charging s then 0
    else n810bm_measure_batt_voltage battvolt_samples
  if 0 ≤ millivolt then .ok (n810bm_mvolt2percent millivolt.toNat)
  else .enodev

/-- Concrete state with the charge algorithm active, for C9. -/
def chargingState : BmState :=
  { battery_present := true, charger_present := true, capacity := 1500,
    charger_enabled := true, charging := true, active_current_pwm := 10,
    current_measure_enabled := 1, curr_timer := 250, hw_curmeas_on := true,
    notify_flags := 0, trace := [] }

/-- Counterexample for C9: with the charge algorithm reporting charging,
reading battery_level yields the percentage 0, not the not-available
result the claim promises. -/
theorem battery_level_show_charging_counterexample :
    lipocharge_is_charging chargingState = true ∧
    n810bm_attr_battery_level_show chargingState [] = ShowResult.ok 0 ∧
    n810bm_attr_battery_level_show chargingState [] ≠ ShowResult.enodev := by
  decide

/-- C9 amended: whenever the charge algorithm reports that charging is
active, reading battery_level yields the fixed percentage 0 (the clamped
percentage of the 0 mV sentinel), never a measured percentage and never
the not-available result. -/
theorem battery_level_show_charging (s : BmState) (samples : List Int)
    (h : lipocharge_is_charging s = true) :
    n810bm_attr_battery_level_show s samples = ShowResult.ok 0 := by
  unfold n810bm_attr_battery_level_show
  rw [h]
  simp
  decide

/-- Witness for C9 amended: evaluated at the concrete charging state. -/
theorem battery_level_show_charging_witness :
    n810bm_attr_battery_level_show chargingState [949] = ShowResult.ok 0 :=
  battery_level_show_charging chargingState [949] rfl

/-! ## Calibration parser (`n810bm_parse_pmm_block` and helpers)

The PMM block is a 1536-byte blob: 3 groups of 512 bytes, 32 elements of
16 bytes per group, byte 16 a bitmask of active groups.  Blob bytes are
modelled as `Nat` (each < 256 in any real image; the embedding is total
regardless). -/

/-- One calibration slot (`struct n810bm_adc_calib`); `field1`/`field2`
keep the raw u32 images (the 0xFE channel's field1 is interpreted as
signed only by the sanity check, below). -/
structure AdcCalib where
  id : Nat
  flags : Nat
  adc_groupnr : Nat
  field1 : Nat
  field2 : Nat
  field3 : Nat
  field4 : Nat
  deriving DecidableEq, Inhabited

/-- The 25-slot calibration table (`struct n810bm_calib`). -/
abbrev Calib := List AdcCalib

/-- Error codes the parser returns (-EINVAL, -ENOENT, -EOPNOTSUPP,
-EILSEQ). -/
inductive PmmErr
  | einval
  | enoent
  | eopnotsupp
  | eilseq
  deriving DecidableEq

instance exceptDecEq {ε α : Type} [DecidableEq ε] [DecidableEq α] :
    DecidableEq (Except ε α) := fun x y =>
  match x, y with
  | .ok a, .ok b => if h : a = b then isTrue (by rw [h]) else isFalse (by simp [h])
  | .error a, .error b =>
    if h : a = b then isTrue (by rw [h]) else isFalse (by simp [h])
  | .ok _, .error _ => isFalse (by simp)
  | .error _, .ok _ => isFalse (by simp)

/-- Embedding of `n810bm_get_adc_calib`, as the slot index it selects:
id 0xFE maps to index 0, every other id to id + 1; an index at or beyond
the 25-entry table yields none (the NULL return). -/
def n810bm_get_adc_calib_index (id : Nat) : Option Nat :=
  let index := if id ≠ 0xFE then id + 1 else 0
  if index ≥ 25 then none else some index

/-- Embedding of `pmm_record_get`: the blob-size and bounds checks
(-EINVAL), the active-group-mask test on byte 16 (-ENOENT), then the
`length` bytes at the record's position. -/
def pmm_record_get (pmm : List Nat) (length group element offset : Nat) :
    Except PmmErr (List Nat) :=
  if pmm.length ≠ 0x600 then .error .einval
  else if group ≥ 0x600 / 0x200 then .error .einval
  else if element ≥ 0x200 / 0x10 then .error .einval
  else if offset ≥ 0x10 ∨ length > 0x10 ∨ length + offset > 0x10 then
    .error .einval
  else if pmm.getD 16 0 &&& (1 <<< group) = 0 then .error .enoent
  else .ok ((pmm.drop (group * 0x200 + element * 0x10 + offset)).take length)

/-- Decoded `struct group1_element` (12 bytes: id, flags, adc_groupnr,
padding, two little-endian u32 fields). -/
structure Group1Elem where
  id : Nat
  flags : Nat
  adc_groupnr : Nat
  field1 : Nat
  field2 : Nat
  deriving DecidableEq

/-- Little-endian 32-bit decode. -/
def le32 (b0 b1 b2 b3 : Nat) : Nat :=
  b0 + 0x100 * b1 + 0x10000 * b2 + 0x1000000 * b3

/-- Decode of a 12-byte `group1_element` image. -/
def decode_group1_elem (bytes : List Nat) : Group1Elem :=
  { id := bytes.getD 0 0, flags := bytes.getD 1 0,
    adc_groupnr := bytes.getD 2 0,
    field1 := le32 (bytes.getD 4 0) (bytes.getD 5 0)
                   (bytes.getD 6 0) (bytes.getD 7 0),
    field2 := le32 (bytes.getD 8 0) (bytes.getD 9 0)
                   (bytes.getD 10 0) (bytes.getD 11 0) }

/-- Embedding of `extract_group1_elem`: for each listed channel id, fetch
group 1 / element id+3 (a failed fetch is skipped), resolve the slot from
the record's own id byte (-EINVAL when no slot exists), and copy the
masked fields only when the record's flags equal the slot's current flags
(mismatches are silently skipped). -/
def extract_group1_elem (pmm : List Nat) (ids : List Nat)
    (field1_mask field2_mask : Nat) (c : Calib) : Except PmmErr Calib :=
  match ids with
  | [] => .ok c
  | i :: rest =>
    match pmm_record_get pmm 12 1 (i + 3) 0 with
    | .error _ => extract_group1_elem pmm rest field1_mask field2_mask c
    | .ok bytes =>
      let elem := decode_group1_elem bytes
      match n810bm_get_adc_calib_index elem.id with
      | none => .error .einval
      | some idx =>
        let cal := c.getD idx default
        if cal.flags = elem.flags then
          extract_group1_elem pmm rest field1_mask field2_mask
            (c.set idx { cal with field1 := elem.field1 &&& field1_mask,
                                  field2 := elem.field2 &&& field2_mask })
        else extract_group1_elem pmm rest field1_mask field2_mask c

/-- The first id list of `n810bm_parse_pmm_group1` (full masks):
battery voltage, charger voltage, backup voltage, battery current. -/
def pmm_adc_ids_1 : List Nat := [0x01, 0x02, 0x13, 0x0E]

/-- The second id list (field2 masked to zero): BSI. -/
def pmm_adc_ids_2 : List Nat := [0x04]

/-- The third id list (field2 masked to 16 bits): battery temperature. -/
def pmm_adc_ids_3 : List Nat := [0x05]

/-- The group 1 / element 2 step of `n810bm_parse_pmm_group1`: when the
record carries the chip-internal id 0xFE and flags 0x05, its fields seed
slot 0 (the slot `n810bm_get_adc_calib` yields for 0xFE). -/
def seed_group1_elem2 (elem : Group1Elem) (c0 : Calib) : Calib :=
  if elem.id = 0xFE ∧ elem.flags = 0x05 then
    c0.set 0 { (c0.getD 0 default) with
                 id := 0xFE,
                 flags := 0x05,
                 field1 := elem.field1,
                 field2 := elem.field2 }
  else c0

/-- Embedding of `n810bm_parse_pmm_group1`: group 1 / element 2 is read
(failure is fatal) and may seed slot 0; then the three id lists are
extracted with their masks. -/
def n810bm_parse_pmm_group1 (pmm : List Nat) (c0 : Calib) :
    Except PmmErr Calib :=
  match pmm_record_get pmm 12 1 2 0 with
  | .error e => .error e
  | .ok bytes =>
    let c1 := seed_group1_elem2 (decode_group1_elem bytes) c0
    match extract_group1_elem pmm pmm_adc_ids_1 0xFFFFFFFF 0xFFFFFFFF c1 with
    | .error e => .error e
    | .ok c2 =>
      match extract_group1_elem pmm pmm_adc_ids_2 0xFFFFFFFF 0 c2 with
      | .error e => .error e
      | .ok c3 => extract_group1_elem pmm pmm_adc_ids_3 0xFFFFFFFF 0xFFFF c3

/-- Embedding of `n810bm_parse_pmm_group2`: unimplemented upstream,
always -EOPNOTSUPP. -/
def n810bm_parse_pmm_group2 (pmm : List Nat) : Except PmmErr Calib :=
  .error .eopnotsupp

/-- A cleared slot of `n810bm_adc_calib_set_defaults` (memset to zero,
flags then set to 0xFF). -/
def blank_adc_calib : AdcCalib :=
  { id := 0, flags := 0xFF, adc_groupnr := 0, field1 := 0, field2 := 0,
    field3 := 0, field4 := 0 }

/-- The literal `defaults[]` table of `n810bm_adc_calib_set_defaults`
(4294967294 is the u32 image of -2). -/
def calib_defaults_entries : List AdcCalib :=
  [ { id := 0x06, flags := 0x00, adc_groupnr := 0, field1 := 0, field2 := 0,
      field3 := 0, field4 := 0 },
    { id := 0x07, flags := 0x00, adc_groupnr := 0, field1 := 0, field2 := 0,
      field3 := 0, field4 := 0 },
    { id := 0x15, flags := 0x00, adc_groupnr := 0, field1 := 0, field2 := 0,
      field3 := 0, field4 := 0 },
    { id := 0x08, flags := 0x00, adc_groupnr := 0, field1 := 0, field2 := 0,
      field3 := 0, field4 := 0 },
    { id := 0x16, flags := 0x00, adc_groupnr := 0, field1 := 0, field2 := 0,
      field3 := 0, field4 := 0 },
    { id := 0x17, flags := 0x00, adc_groupnr := 0, field1 := 0, field2 := 0,
      field3 := 0, field4 := 0 },
    { id := 0x03, flags := 0x00, adc_groupnr := 0, field1 := 0, field2 := 0,
      field3 := 0, field4 := 0 },
    { id := 0xFE, flags := 0x05, adc_groupnr := 1, field1 := 4294967294,
      field2 := 13189, field3 := 0, field4 := 0 },
    { id := 0x01, flags := 0x01, adc_groupnr := 1, field1 := 2527,
      field2 := 21373, field3 := 0, field4 := 0 },
    { id := 0x02, flags := 0x01, adc_groupnr := 1, field1 := 0,
      field2 := 129848, field3 := 0, field4 := 0 },
    { id := 0x13, flags := 0x01, adc_groupnr := 1, field1 := 0,
      field2 := 20000, field3 := 0, field4 := 0 },
    { id := 0x0E, flags := 0x06, adc_groupnr := 1, field1 := 0,
      field2 := 9660, field3 := 0, field4 := 0 },
    { id := 0x04, flags := 0x02, adc_groupnr := 2, field1 := 1169,
      field2 := 0, field3 := 0, field4 := 0 },
    { id := 0x05, flags := 0x03, adc_groupnr := 3, field1 := 265423000,
      field2 := 298, field3 := 0, field4 := 0 },
    { id := 0x14, flags := 0x04, adc_groupnr := 4, field1 := 19533778,
      field2 := 308019670, field3 := 4700, field4 := 2500 } ]

/-- Embedding of `n810bm_adc_calib_set_defaults`: clear all 25 slots to
flags 0xFF, then copy each default entry into the slot its id selects. -/
def n810bm_adc_calib_set_defaults : Calib :=
  calib_defaults_entries.foldl
    (fun c d => match n810bm_get_adc_calib_index d.id with
      | some i => c.set i d
      | none => c)
    (List.replicate 25 blank_adc_calib)

/-- Whether a slot id is one of the 7 channels the sanity loop counts
(battery voltage, charger voltage, BSI, battery temperature, battery
current, backup voltage, chip-internal 0xFE). -/
def adc_calib_counted (id : Nat) : Bool :=
  id = 0x01 || id = 0x02 || id = 0x04 || id = 0x05 || id = 0x0E ||
  id = 0x13 || id = 0xFE

/-- Signed 32-bit reading of a u32 image (the `(s32)` casts of the sanity
loop). -/
def s32 (n : Nat) : Int :=
  if n < 2 ^ 31 then (n : Int) else (n : Int) - 2 ^ 32

/-- Range test the sanity loop applies to a non-0xFF slot, by channel id;
ids without a range case pass. -/
def adc_calib_range_ok (a : AdcCalib) : Bool :=
  if a.id = 0x01 then
    decide (2400 ≤ a.field1 ∧ a.field1 ≤ 2700 ∧
            20000 ≤ a.field2 ∧ a.field2 ≤ 23000)
  else if a.id = 0x04 then decide (1100 ≤ a.field1 ∧ a.field1 ≤ 1300)
  else if a.id = 0x0E then decide (7000 ≤ a.field2 ∧ a.field2 ≤ 12000)
  else if a.id = 0xFE then
    decide (s32 a.field1 ≤ 14 ∧ -14 ≤ s32 a.field1 ∧
            13000 ≤ a.field2 ∧ a.field2 ≤ 13350)
  else true

/-- The sanity loop of `n810bm_parse_pmm_block`: skip flags-0xFF slots,
fail with -EILSEQ on the first range violation, count the required
channels. -/
def pmm_sanity_count : Calib → Except PmmErr Nat
  | [] => .ok 0
  | a :: rest =>
    if a.flags = 0xFF then pmm_sanity_count rest
    else if adc_calib_range_ok a then
      match pmm_sanity_count rest with
      | .error e => .error e
      | .ok n => .ok (n + if adc_calib_counted a.id then 1 else 0)
    else .error .eilseq

/-- Embedding of `n810bm_parse_pmm_block`: set the defaults, read the two
one-byte format markers at group 1 / elements 0 and 1 (both must succeed
and read 0x01, otherwise the unimplemented group-2 parser is chosen), run
the group-1 parser, then the sanity pass, finally requiring exactly 7
counted channels (-EILSEQ otherwise). -/
def n810bm_parse_pmm_block (pmm : List Nat) : Except PmmErr Calib :=
  let c := n810bm_adc_calib_set_defaults
  if pmm_record_get pmm 1 1 0 0 = .ok [0x01] ∧
      pmm_record_get pmm 1 1 1 0 = .ok [0x01] then
    match n810bm_parse_pmm_group1 pmm c with
    | .error e => .error e
    | .ok c1 =>
      match pmm_sanity_count c1 with
      | .error e => .error e
      | .ok count => if count = 7 then .ok c1 else .error .eilseq
  else n810bm_parse_pmm_group2 pmm

/-- Driver-level calibration state observable through the attribute
interface: the table is published (and the device initialised) only once
a parse has fully succeeded. -/
structure FwState where
  calib : Option Calib
  initialized : Bool
  deriving DecidableEq

/-- Outcomes of `n810bm_pmm_block_found`. -/
inductive FwErr
  | notFound
  | badFormat
  | parseFailed (e : PmmErr)
  deriving DecidableEq

/-- The 15-byte magic "BME-PMM-BLOCK01". -/
def pmm_block_magic : List Nat :=
  [0x42, 0x4D, 0x45, 0x2D, 0x50, 0x4D, 0x4D, 0x2D,
   0x42, 0x4C, 0x4F, 0x43, 0x4B, 0x30, 0x31]

/-- Embedding of `n810bm_pmm_block_found`: a missing image, a size other
than 1536 bytes or a magic mismatch is rejected before any parsing step
runs, leaving the observable calibration state untouched; only a fully
successful parse publishes a table. -/
def n810bm_pmm_block_found (fw : Option (List Nat)) (st : FwState) :
    FwState × Option FwErr :=
  match fw with
  | none => (st, some .notFound)
  | some data =>
    if data.length ≠ 0x600 ∨ data.take 15 ≠ pmm_block_magic then
      (st, some .badFormat)
    else
      match n810bm_parse_pmm_block data with
      | .error e => (st, some (.parseFailed e))
      | .ok t => ({ calib := some t, initialized := true }, none)

/-! ## Shape of a calibration table

The group-1 parser only ever writes `field1`/`field2` of existing slots
(and re-seeds slot 0 with the id/flags it already carries by default), so
the id/flags shape of the table — which is all the sanity counting looks
at — is invariant across parsing.  `calib_shape` projects that shape. -/

/-- The (id, flags) projection of a calibration table. -/
def calib_shape (c : Calib) : List (Nat × Nat) :=
  c.map fun a => (a.id, a.flags)

/-- Number of populated (non-0xFF) slots carrying a counted channel id:
the value the sanity loop's `count` reaches when no range check fails. -/
def calib_required_count (c : Calib) : Nat :=
  (c.filter fun a => (a.flags != 0xFF) && adc_calib_counted a.id).length

theorem list_map_set_same {α β : Type} (f : α → β) (l : List α) (i : Nat)
    (v d : α) (hv : f v = f (l.getD i d)) : (l.set i v).map f = l.map f := by
  induction l generalizing i with
  | nil => simp
  | cons x xs ih =>
    cases i with
    | zero =>
      simp only [List.getD_cons_zero] at hv
      simp [List.set, hv]
    | succ n =>
      simp only [List.getD_cons_succ] at hv
      simp [List.set, ih n hv]

theorem calib_shape_getD (c : Calib) (i : Nat) :
    (calib_shape c).getD i (blank_adc_calib.id, blank_adc_calib.flags) =
      ((c.getD i blank_adc_calib).id, (c.getD i blank_adc_calib).flags) := by
  induction c generalizing i with
  | nil => simp [calib_shape]
  | cons x xs ih =>
    cases i with
    | zero => simp [calib_shape]
    | succ n =>
      simp only [calib_shape, List.map_cons, List.getD_cons_succ]
      exact ih n

theorem seed_group1_elem2_shape (elem : Group1Elem) (c0 : Calib)
    (h0 : (c0.getD 0 default).id = 0xFE ∧ (c0.getD 0 default).flags = 0x05) :
    calib_shape (seed_group1_elem2 elem c0) = calib_shape c0 := by
  unfold seed_group1_elem2
  by_cases hseed : elem.id = 0xFE ∧ elem.flags = 0x05
  · rw [if_pos hseed]
    exact list_map_set_same _ c0 0 _ default (by dsimp only; rw [h0.1, h0.2])
  · rw [if_neg hseed]

theorem extract_group1_elem_shape (pmm : List Nat) (ids : List Nat)
    (m1 m2 : Nat) (c c' : Calib)
    (h : extract_group1_elem pmm ids m1 m2 c = .ok c') :
    calib_shape c' = calib_shape c := by
  induction ids generalizing c with
  | nil =>
    simp only [extract_group1_elem] at h
    cases h
    rfl
  | cons i rest ih =>
    rw [extract_group1_elem] at h
    cases hrec : pmm_record_get pmm 12 1 (i + 3) 0 with
    | error e =>
      rw [hrec] at h
      exact ih c h
    | ok bytes =>
      rw [hrec] at h
      dsimp only at h
      cases hidx : n810bm_get_adc_calib_index (decode_group1_elem bytes).id with
      | none =>
        rw [hidx] at h
        cases h
      | some idx =>
        rw [hidx] at h
        dsimp only at h
        by_cases hfl :
            (c.getD idx default).flags = (decode_group1_elem bytes).flags
        · rw [if_pos hfl] at h
          rw [ih _ h]
          exact list_map_set_same _ c idx _ default rfl
        · rw [if_neg hfl] at h
          exact ih c h

theorem parse_pmm_group1_shape (pmm : List Nat) (c0 c' : Calib)
    (h : n810bm_parse_pmm_group1 pmm c0 = .ok c')
    (h0 : (c0.getD 0 default).id = 0xFE ∧ (c0.getD 0 default).flags = 0x05) :
    calib_shape c' = calib_shape c0 := by
  rw [n810bm_parse_pmm_group1] at h
  cases hrec : pmm_record_get pmm 12 1 2 0 with
  | error e =>
    rw [hrec] at h
    cases h
  | ok bytes =>
    rw [hrec] at h
    dsimp only at h
    cases hx1 : extract_group1_elem pmm pmm_adc_ids_1 0xFFFFFFFF 0xFFFFFFFF
        (seed_group1_elem2 (decode_group1_elem bytes) c0) with
    | error e =>
      rw [hx1] at h
      cases h
    | ok c2 =>
      rw [hx1] at h
      dsimp only at h
      cases hx2 : extract_group1_elem pmm pmm_adc_ids_2 0xFFFFFFFF 0 c2 with
      | error e =>
        rw [hx2] at h
        cases h
      | ok c3 =>
        rw [hx2] at h
        dsimp only at h
        calc calib_shape c'
            = calib_shape c3 := extract_group1_elem_shape _ _ _ _ _ _ h
          _ = calib_shape c2 := extract_group1_elem_shape _ _ _ _ _ _ hx2
          _ = calib_shape (seed_group1_elem2 (decode_group1_elem bytes) c0) :=
              extract_group1_elem_shape _ _ _ _ _ _ hx1
          _ = calib_shape c0 := seed_group1_elem2_shape _ _ h0

theorem calib_required_count_of_shape (c c' : Calib)
    (h : calib_shape c = calib_shape c') :
    calib_required_count c = calib_required_count c' := by
  induction c generalizing c' with
  | nil =>
    cases c' with
    | nil => rfl
    | cons b bs => simp [calib_shape] at h
  | cons a rest ih =>
    cases c' with
    | nil => simp [calib_shape] at h
    | cons b bs =>
      simp only [calib_shape, List.map_cons, List.cons.injEq] at h
      obtain ⟨hhead, htail⟩ := h
      rw [Prod.mk.injEq] at hhead
      have ihx := ih bs htail
      simp only [calib_required_count, List.filter_cons] at ihx ⊢
      have hpred : ((a.flags != 0xFF) && adc_calib_counted a.id) =
          ((b.flags != 0xFF) && adc_calib_counted b.id) := by
        rw [hhead.1, hhead.2]
      rw [hpred]
      by_cases hp : ((b.flags != 0xFF) && adc_calib_counted b.id) = true
      · rw [if_pos hp, if_pos hp]
        simp only [List.length_cons]
        omega
      · rw [if_neg hp, if_neg hp]
        exact ihx

theorem pmm_sanity_count_all_ok (c : Calib)
    (h : ∀ a ∈ c, a.flags ≠ 0xFF → adc_calib_range_ok a = true) :
    pmm_sanity_count c = .ok (calib_required_count c) := by
  induction c with
  | nil => rfl
  | cons a rest ih =>
    have hrest := ih fun b hb => h b (List.mem_cons_of_mem a hb)
    by_cases hff : a.flags = 0xFF
    · rw [pmm_sanity_count, if_pos hff, hrest]
      have hp : ((a.flags != 0xFF) && adc_calib_counted a.id) = false := by
        simp [hff]
      simp [calib_required_count, List.filter_cons, hp]
    · rw [pmm_sanity_count, if_neg hff,
        if_pos (h a (List.mem_cons_self a rest) hff), hrest]
      dsimp only
      cases hcnt : adc_calib_counted a.id with
      | true =>
        have hp : ((a.flags != 0xFF) && adc_calib_counted a.id) = true := by
          simp [hff, hcnt]
        simp [calib_required_count, List.filter_cons, hp, hcnt]
        rw [if_neg hff]
        simp
      | false =>
        have hp : ((a.flags != 0xFF) && adc_calib_counted a.id) = false := by
          simp [hcnt]
        simp [calib_required_count, List.filter_cons, hp, hcnt]

theorem pmm_sanity_count_violation (c : Calib)
    (h : ∃ a ∈ c, a.flags ≠ 0xFF ∧ adc_calib_range_ok a = false) :
    ∃ e, pmm_sanity_count c = .error e := by
  induction c with
  | nil => simp at h
  | cons a rest ih =>
    rcases h with ⟨b, hb, hbf, hbr⟩
    rcases List.mem_cons.1 hb with hba | hbrest
    · subst hba
      refine ⟨.eilseq, ?_⟩
      rw [pmm_sanity_count, if_neg hbf, if_neg (by simp [hbr])]
    · by_cases hff : a.flags = 0xFF
      · obtain ⟨e, he⟩ := ih ⟨b, hbrest, hbf, hbr⟩
        exact ⟨e, by rw [pmm_sanity_count, if_pos hff, he]⟩
      · by_cases hra : adc_calib_range_ok a = true
        · obtain ⟨e, he⟩ := ih ⟨b, hbrest, hbf, hbr⟩
          refine ⟨e, ?_⟩
          rw [pmm_sanity_count, if_neg hff, if_pos hra, he]
        · exact ⟨.eilseq, by rw [pmm_sanity_count, if_neg hff,
            if_neg hra]⟩

theorem required_populated_of_shape (t : Calib)
    (hs : calib_shape t = calib_shape n810bm_adc_calib_set_defaults)
    (r : Nat) (hr : adc_calib_counted r = true) :
    ∃ i, n810bm_get_adc_calib_index r = some i ∧
      (t.getD i blank_adc_calib).id = r ∧
      (t.getD i blank_adc_calib).flags ≠ 0xFF := by
  have key : ∀ i, ((t.getD i blank_adc_calib).id,
        (t.getD i blank_adc_calib).flags) =
      ((n810bm_adc_calib_set_defaults.getD i blank_adc_calib).id,
       (n810bm_adc_calib_set_defaults.getD i blank_adc_calib).flags) := by
    intro i
    rw [← calib_shape_getD, ← calib_shape_getD, hs]
  simp only [adc_calib_counted, Bool.or_eq_true, decide_eq_true_eq] at hr
  rcases hr with ((((((h | h) | h) | h) | h) | h) | h) <;> subst h
  · have h2 := key 2
    rw [Prod.mk.injEq] at h2
    exact ⟨2, by decide, by rw [h2.1]; decide, by rw [h2.2]; decide⟩
  · have h2 := key 3
    rw [Prod.mk.injEq] at h2
    exact ⟨3, by decide, by rw [h2.1]; decide, by rw [h2.2]; decide⟩
  · have h2 := key 5
    rw [Prod.mk.injEq] at h2
    exact ⟨5, by decide, by rw [h2.1]; decide, by rw [h2.2]; decide⟩
  · have h2 := key 6
    rw [Prod.mk.injEq] at h2
    exact ⟨6, by decide, by rw [h2.1]; decide, by rw [h2.2]; decide⟩
  · have h2 := key 15
    rw [Prod.mk.injEq] at h2
    exact ⟨15, by decide, by rw [h2.1]; decide, by rw [h2.2]; decide⟩
  · have h2 := key 20
    rw [Prod.mk.injEq] at h2
    exact ⟨20, by decide, by rw [h2.1]; decide, by rw [h2.2]; decide⟩
  · have h2 := key 0
    rw [Prod.mk.injEq] at h2
    exact ⟨0, by decide, by rw [h2.1]; decide, by rw [h2.2]; decide⟩

/-- C2: with the two format markers passing and the group-1 extraction
succeeding with table t, parsing succeeds exactly when every populated
slot satisfies its per-channel bound: in that case the result is t, the
populated required-channel count is exactly 7 and each of the 7 required
channels sits populated in its slot; a violation in any populated slot
makes parsing fail, and a failed parse never changes the observable
calibration state (atomic replace-or-reject). -/
theorem parse_pmm_block_spec (pmm : List Nat) (t : Calib)
    (hm : pmm_record_get pmm 1 1 0 0 = .ok [0x01] ∧
          pmm_record_get pmm 1 1 1 0 = .ok [0x01])
    (hg : n810bm_parse_pmm_group1 pmm n810bm_adc_calib_set_defaults = .ok t) :
    ((∀ a ∈ t, a.flags ≠ 0xFF → adc_calib_range_ok a = true) →
      n810bm_parse_pmm_block pmm = .ok t ∧
      calib_required_count t = 7 ∧
      (∀ r, adc_calib_counted r = true →
        ∃ i, n810bm_get_adc_calib_index r = some i ∧
          (t.getD i blank_adc_calib).id = r ∧
          (t.getD i blank_adc_calib).flags ≠ 0xFF)) ∧
    ((∃ a ∈ t, a.flags ≠ 0xFF ∧ adc_calib_range_ok a = false) →
      (∃ e, n810bm_parse_pmm_block pmm = .error e) ∧
      ∀ st : FwState, (n810bm_pmm_block_found (some pmm) st).1 = st) := by
  have hshape : calib_shape t = calib_shape n810bm_adc_calib_set_defaults :=
    parse_pmm_group1_shape pmm _ t hg (by decide)
  have hcount : calib_required_count t = 7 := by
    rw [calib_required_count_of_shape t n810bm_adc_calib_set_defaults hshape]
    decide
  constructor
  · intro hok
    refine ⟨?_, hcount, fun r hr => required_populated_of_shape t hshape r hr⟩
    unfold n810bm_parse_pmm_block
    dsimp only
    rw [if_pos hm, hg]
    dsimp only
    rw [pmm_sanity_count_all_ok t hok]
    dsimp only
    rw [hcount, if_pos rfl]
  · intro hviol
    obtain ⟨e, he⟩ := pmm_sanity_count_violation t hviol
    have hparse : n810bm_parse_pmm_block pmm = .error e := by
      unfold n810bm_parse_pmm_block
      dsimp only
      rw [if_pos hm, hg]
      dsimp only
      rw [he]
    refine ⟨⟨e, hparse⟩, ?_⟩
    intro st
    unfold n810bm_pmm_block_found
    dsimp only
    by_cases hhdr : pmm.length ≠ 0x600 ∨ pmm.take 15 ≠ pmm_block_magic
    · rw [if_pos hhdr]
    · rw [if_neg hhdr, hparse]

/-- Concrete well-formed blob for the C2 witness: group 1 active (byte 16
is 0x02), the two markers at group 1 / elements 0 and 1 both 0x01, all
record payloads zero so every extraction is skipped by the flags guard
and the defaults (which pass all range checks) survive. -/
def pmmGoodBlob : List Nat :=
  List.replicate 16 0 ++ [2] ++ List.replicate 495 0 ++ [1] ++
  List.replicate 15 0 ++ [1] ++ List.replicate 1007 0

set_option maxRecDepth 100000 in
/-- Witness for C2: the concrete blob parses to the default table with
exactly 7 populated required channels. -/
theorem parse_pmm_block_spec_witness :
    n810bm_parse_pmm_block pmmGoodBlob = .ok n810bm_adc_calib_set_defaults ∧
    calib_required_count n810bm_adc_calib_set_defaults = 7 ∧
    (∀ r, adc_calib_counted r = true →
      ∃ i, n810bm_get_adc_calib_index r = some i ∧
        (n810bm_adc_calib_set_defaults.getD i blank_adc_calib).id = r ∧
        (n810bm_adc_calib_set_defaults.getD i blank_adc_calib).flags ≠ 0xFF) :=
  (parse_pmm_block_spec pmmGoodBlob n810bm_adc_calib_set_defaults
    ⟨by decide, by decide⟩ (by decide)).1 (by decide)

/-- C5: a blob whose size is not exactly 1536 bytes or whose first 15
bytes differ from "BME-PMM-BLOCK01" is rejected with the header-format
error before any parsing step runs, and the observable calibration state
is unchanged. -/
theorem pmm_block_found_bad_header (data : List Nat) (st : FwState)
    (h : data.length ≠ 0x600 ∨ data.take 15 ≠ pmm_block_magic) :
    n810bm_pmm_block_found (some data) st = (st, some .badFormat) := by
  unfold n810bm_pmm_block_found
  dsimp only
  rw [if_pos h]

/-- Witness for C5: the empty blob is rejected as a header-format error
with the state untouched. -/
theorem pmm_block_found_bad_header_witness :
    n810bm_pmm_block_found (some []) { calib := none, initialized := false } =
      ({ calib := none, initialized := false }, some FwErr.badFormat) :=
  pmm_block_found_bad_header [] { calib := none, initialized := false }
    (Or.inl (by decide))

/-- C10: slot lookup is total and in-bounds for an arbitrary id byte:
0xFE selects index 0, any other id selects id+1 only when that lies
inside the 25-entry table and otherwise no slot (NULL); group-1
extraction aborts with -EINVAL when a record's id byte selects no slot,
and a successful extraction preserves the table's length, so no id byte
in the blob can cause a write outside the calibration array. -/
theorem get_adc_calib_total_inbounds (id : Nat) :
    (∀ i, n810bm_get_adc_calib_index id = some i → i < 25) ∧
    (id = 0xFE → n810bm_get_adc_calib_index id = some 0) ∧
    (id ≠ 0xFE → n810bm_get_adc_calib_index id =
      if id + 1 < 25 then some (id + 1) else none) ∧
    (∀ pmm rest m1 m2 (c : Calib) bytes,
      pmm_record_get pmm 12 1 (id + 3) 0 = .ok bytes →
      n810bm_get_adc_calib_index (decode_group1_elem bytes).id = none →
      extract_group1_elem pmm (id :: rest) m1 m2 c = .error .einval) ∧
    (∀ pmm ids m1 m2 (c c' : Calib),
      extract_group1_elem pmm ids m1 m2 c = .ok c' →
      c'.length = c.length) := by
  refine ⟨?_, ?_, ?_, ?_, ?_⟩
  · intro i hi
    simp only [n810bm_get_adc_calib_index] at hi
    by_cases hfe : id ≠ 0xFE
    · rw [if_pos hfe] at hi
      by_cases h25 : id + 1 ≥ 25
      · rw [if_pos h25] at hi
        cases hi
      · rw [if_neg h25] at hi
        cases hi
        omega
    · rw [if_neg hfe] at hi
      rw [if_neg (by omega)] at hi
      cases hi
      omega
  · intro h
    subst h
    decide
  · intro hne
    simp only [n810bm_get_adc_calib_index, if_pos hne]
    by_cases h25 : id + 1 < 25
    · rw [if_neg (by omega), if_pos h25]
    · rw [if_pos (by omega), if_neg h25]
  · intro pmm rest m1 m2 c bytes hrec hnone
    rw [extract_group1_elem, hrec]
    dsimp only
    rw [hnone]
  · intro pmm ids m1 m2 c c' hx
    have hsh := extract_group1_elem_shape pmm ids m1 m2 c c' hx
    have hlen : (calib_shape c').length = (calib_shape c).length := by
      rw [hsh]
    simpa [calib_shape] using hlen

end N810bm
